import Mathlib

/-!
Shallow embedding of the `SourceFinder` class from `src/source_finder.py`,
together with theorems settling the specification claims about it.

Modelling conventions:
* Python strings are Lean `String`s; Python string slicing, lowercasing and
  substring tests operate on the code-point sequence `String.data`.
* Python numbers entering comparisons (`score`, `0.35`, ...) are modelled as
  exact rationals `ℚ`.
* External collaborators (the `rapidfuzz` ratio, the sklearn stopword set, the
  DuckDuckGo search, the trafilatura extraction, the filesystem, the clock and
  `random.shuffle`) are parameters of the embedding: the ratio, stopwords,
  search results and raw extraction results are inputs, and each call to
  `random.shuffle` is an arbitrary permutation of its input list.
* Python exceptions are modelled with `Except`/sum-shaped outcome types;
  `except` clauses become pattern matches on those outcomes.
-/

namespace SourceFinder

/-- ASCII lowercasing of one character; models Python `str.lower` on the
ASCII characters relevant to this program (other characters are unchanged). -/
def pyLowerChar (c : Char) : Char :=
  if 'A' ≤ c ∧ c ≤ 'Z' then Char.ofNat (c.toNat + 32) else c

/-- Python `s.lower()`. -/
def pyLower (s : String) : String := ⟨s.data.map pyLowerChar⟩

/-- Python slicing `s[:n]` (by code points). -/
def pyTake (s : String) (n : Nat) : String := ⟨s.data.take n⟩

/-- Python slicing `s[n:]` (by code points). -/
def pyDrop (s : String) (n : Nat) : String := ⟨s.data.drop n⟩

/-- Python substring test `need in hay`. -/
def pyContains (hay need : String) : Bool := decide (need.data <:+: hay.data)

/-- `[a-zA-Z]` of the regex in `_extract_keywords`. -/
def isAsciiAlpha (c : Char) : Bool := ('a' ≤ c && c ≤ 'z') || ('A' ≤ c && c ≤ 'Z')

def isAsciiDigit (c : Char) : Bool := '0' ≤ c && c ≤ '9'

/-- A regex word character `\w` (`[a-zA-Z0-9_]`), used by the `\b` anchors. -/
def isWordChar (c : Char) : Bool := isAsciiAlpha c || isAsciiDigit c || c == '_'

/-- Accumulator for `re.findall(r'\b[a-zA-Z]+\b', s)`: `leftOk` records whether
the character preceding the current alphabetic run (held reversed in `acc`)
was a word boundary; a finished run is kept only when both of its ends sit at
word boundaries, exactly as the two `\b` anchors require. -/
def findWordsAux (leftOk : Bool) (acc : List Char) : List Char → List (List Char)
  | [] => if acc.isEmpty then [] else if leftOk then [acc.reverse] else []
  | c :: cs =>
    if isAsciiAlpha c then findWordsAux leftOk (c :: acc) cs
    else
      let rest := findWordsAux (!isWordChar c) [] cs
      if !acc.isEmpty && leftOk && !isWordChar c then acc.reverse :: rest else rest

/-- `re.findall(r'\b[a-zA-Z]+\b', s)`. -/
def findWords (s : String) : List String := (findWordsAux true [] s.data).map (fun l => ⟨l⟩)

/-- `SourceFinder._extract_keywords` (lines 107-113): tokenize the lowercased
text into alphabetic words and keep those that are not stopwords and have
length `> 2`.  The sklearn stopword set is an external input `stopwords`. -/
def extract_keywords (stopwords : List String) (text : String) : List String :=
  let words := findWords (pyLower text)
  words.filter (fun w => !stopwords.contains w && 2 < w.length)

/-- The keyword hit rate computed at lines 123-126 of
`SourceFinder._compute_relevance_score`: the number of query keywords that
occur as substrings of the lowercased text, divided by the keyword count. -/
def keyword_hit_rate (stopwords : List String) (gold_query text : String) : ℚ :=
  let query_keywords := extract_keywords stopwords gold_query
  let text_lower := pyLower text
  let keyword_hits := query_keywords.countP (fun kw => pyContains text_lower kw)
  (keyword_hits : ℚ) / (query_keywords.length : ℚ)

/-- `SourceFinder._compute_relevance_score` (lines 115-134).  The external
`fuzz.token_set_ratio` is the parameter `ratio` (rapidfuzz returns a value in
`[0, 100]`, which theorems take as a hypothesis); the division by 100 and the
`0.6 / 0.4` blend are the in-repo logic. -/
def compute_relevance_score (stopwords : List String) (ratio : String → String → ℚ)
    (gold_query text : String) : ℚ :=
  let query_keywords := extract_keywords stopwords gold_query
  if query_keywords.isEmpty then 0
  else
    let fuzzy_score := ratio gold_query (pyTake text 5000) / 100
    6/10 * keyword_hit_rate stopwords gold_query text + 4/10 * fuzzy_score

/-- Python `s.replace(pat, "")` for a nonempty pattern `pat`: remove all
non-overlapping occurrences, scanning left to right.  The `fuel` argument
makes the recursion structural; every step consumes at least one character, so
fuel equal to the list length (as supplied by `removeOcc`) never runs out. -/
def removeOccFuel (pat : List Char) : Nat → List Char → List Char
  | _, [] => []
  | 0, l => l
  | fuel + 1, c :: cs =>
    if pat.isPrefixOf (c :: cs) then removeOccFuel pat fuel (cs.drop (pat.length - 1))
    else c :: removeOccFuel pat fuel cs

def removeOcc (pat l : List Char) : List Char := removeOccFuel pat l.length l

/-- Python `s.replace(pat, "")` on strings. -/
def pyRemoveAll (s pat : String) : String := ⟨removeOcc pat.data s.data⟩

/-- Characters allowed in a URL scheme by `urllib.parse`. -/
def isSchemeChar (c : Char) : Bool :=
  isAsciiAlpha c || isAsciiDigit c || c == '+' || c == '-' || c == '.'

/-- `urllib.parse.urlparse(url).netloc` (an external standard-library
collaborator), modelled for URLs free of the control characters the WHATWG
pre-sanitisation would strip: remove a leading `scheme:` when the part before
the first `:` is a nonempty run of scheme characters starting with a letter,
then, if the remainder begins with `//`, the netloc is what follows up to the
first `/`, `?` or `#`; otherwise the netloc is empty. -/
def urlparse_netloc (url : String) : String :=
  let l := url.data
  let pre := l.takeWhile (fun c => c != ':')
  let rest :=
    if pre.length < l.length && !pre.isEmpty && pre.all isSchemeChar &&
        isAsciiAlpha pre.headI then
      l.drop (pre.length + 1)
    else l
  match rest with
  | '/' :: '/' :: cs => ⟨cs.takeWhile (fun c => (c != '/') && (c != '?') && (c != '#'))⟩
  | _ => ""

/-- The per-entry test at lines 142 and 144: `domain == d or
domain.endswith("." + d)`. -/
def domain_matches (domain entry : String) : Bool :=
  domain == entry || decide (("." ++ entry).data <:+ domain.data)

/-- `SourceFinder._classify_domain` (lines 136-150).  Note the code runs
`.replace("www.", "")` on the lowercased host, which removes EVERY occurrence
of `www.`, not only a leading one. -/
def classify_domain (reliable_domains unreliable_domains : List String) (url : String) : String :=
  let domain := pyRemoveAll (pyLower (urlparse_netloc url)) "www."
  if reliable_domains.any (fun d => domain_matches domain d) then "reliable"
  else if unreliable_domains.any (fun d => domain_matches domain d) then "unreliable"
  else "unknown"

/-- Modelled from the spec: the classifier described in §4.2 / claim C5, which
strips only a LEADING `www.` from the lowercased host.  This definition follows
the spec's words and exists solely to be compared with `classify_domain`,
which is translated from the code. -/
def classify_domain_spec (reliable_domains unreliable_domains : List String) (url : String) : String :=
  let host := pyLower (urlparse_netloc url)
  let domain := if ("www.".data).isPrefixOf host.data then pyDrop host 4 else host
  if reliable_domains.any (fun d => domain_matches domain d) then "reliable"
  else if unreliable_domains.any (fun d => domain_matches domain d) then "unreliable"
  else "unknown"

/-- One DuckDuckGo search result as normalised by `_search_duckduckgo`
(lines 161-165). -/
structure SearchResult where
  url : String
  title : String
  snippet : String
  deriving DecidableEq

/-- A source entry as created at lines 242-250 of `find_sources`. -/
structure Source where
  url : String
  domain : String
  category : String
  score : ℚ
  text : String
  title : String
  snippet : String
  deriving DecidableEq

/-- A source entry as re-formatted by `format_source` (lines 334-343). -/
structure FormattedSource where
  url : String
  domain : String
  category : String
  title : String
  text : String
  timestamp : String
  score : ℚ
  deriving DecidableEq

/-- The output shape of `_create_paired_sets` and `build`. -/
structure PairedResult where
  clear_set : List FormattedSource
  unclear_set : List FormattedSource
  deriving DecidableEq

/-- `format_source` (lines 334-343); `datetime.now().isoformat()` is the
external parameter `now`. -/
def format_source (now : String) (s : Source) : FormattedSource :=
  { url := s.url, domain := s.domain, category := s.category, title := s.title,
    text := s.text, timestamp := now, score := s.score }

/-- `SourceFinder._create_paired_sets` (lines 286-354).  The two calls to
`random.shuffle` are modelled by the function parameters `shuffleR` and
`shuffleU`; theorems quantify over them under the hypothesis that they permute
their input, which is exactly what `random.shuffle` guarantees. -/
def create_paired_sets (now : String) (shuffleR shuffleU : List Source → List Source)
    (sources : List Source) : PairedResult :=
  let reliable_sources := shuffleR (sources.filter (fun s => s.category == "reliable"))
  let unreliable_sources := shuffleU (sources.filter (fun s => s.category == "unreliable"))
  let clear_set :=
    (if 4 ≤ reliable_sources.length then reliable_sources.take 4 else reliable_sources) ++
    (if 1 ≤ unreliable_sources.length then unreliable_sources.take 1 else [])
  let unclear_set :=
    (if 5 ≤ reliable_sources.length then (reliable_sources.drop 4).take 1 else []) ++
    (if 4 ≤ unreliable_sources.length then (unreliable_sources.drop 1).take 3
     else unreliable_sources.drop 1)
  { clear_set := clear_set.map (format_source now),
    unclear_set := unclear_set.map (format_source now) }

/-- The external collaborators of a `SourceFinder` run: sklearn stopwords, the
rapidfuzz ratio, search results per query, raw trafilatura extraction results
per URL (already stripped; `none` models download failure, extraction failure
and the 10s timeout alike), the two `random.shuffle` outcomes, the clock, and
the trust tables loaded from the configuration. -/
structure Env where
  stopwords : List String
  ratio : String → String → ℚ
  search : String → List SearchResult
  extractRaw : String → Option String
  shuffleR : List Source → List Source
  shuffleU : List Source → List Source
  now : String
  reliable_domains : List String
  unreliable_domains : List String

/-- The length gate of `_extract_text_from_url` (lines 193-199): the raw
extraction result is returned only when it is truthy (`if text`) and at least
400 characters long; otherwise the function returns `None`. -/
def extract_text_from_url (raw : Option String) : Option String :=
  match raw with
  | some t => if t ≠ "" ∧ 400 ≤ t.length then some t else none
  | none => none

/-- The per-result body of the loop at lines 219-253 of `find_sources`:
extract text (rejecting `None`, which subsumes the `if not text` test since a
returned text has length ≥ 400), reject scores `< 0.35`, classify the domain
and build the `Source` entry, keeping only the first 1000 characters of the
text. -/
def process_result (env : Env) (gold_query : String) (result : SearchResult) : Option Source :=
  match extract_text_from_url (env.extractRaw result.url) with
  | none => none
  | some text =>
    let score := compute_relevance_score env.stopwords env.ratio gold_query text
    if score < 7/20 then none
    else
      some { url := result.url
           , domain := pyRemoveAll (urlparse_netloc result.url) "www."
           , category := classify_domain env.reliable_domains env.unreliable_domains result.url
           , score := score
           , text := pyTake text 1000
           , title := result.title
           , snippet := result.snippet }

/-- The `reliable` entry of `self.search_queries` (lines 37-43). -/
def search_queries_reliable (gold_query : String) : List String :=
  [gold_query, gold_query ++ " guidelines", gold_query ++ " research",
   gold_query ++ " government", gold_query ++ " academic"]

/-- The `unreliable` entry of `self.search_queries` (lines 44-55). -/
def search_queries_unreliable (gold_query : String) : List String :=
  [gold_query, gold_query ++ " reddit", gold_query ++ " twitter",
   gold_query ++ " natural medicine", gold_query ++ " alternative treatment",
   gold_query ++ " conspiracy", gold_query ++ " natural news"]

/-- All queries in the order the dict iteration of `find_sources` visits them
(`reliable` before `unreliable`, insertion order). -/
def all_queries (gold_query : String) : List String :=
  search_queries_reliable gold_query ++ search_queries_unreliable gold_query

/-- The flat `all_sources` accumulation of `find_sources` (lines 208-253). -/
def collect_sources (env : Env) (gold_query : String) : List Source :=
  (all_queries gold_query).flatMap
    (fun q => (env.search q).filterMap (process_result env gold_query))

/-- `SourceFinder.find_sources` (lines 201-284); the debug snapshot write is
pure I/O with no effect on the returned value and is not modelled. -/
def find_sources (env : Env) (gold_query : String) : PairedResult :=
  create_paired_sets env.now env.shuffleR env.shuffleU (collect_sources env gold_query)

/-- The body of the `try` block of `build` (lines 367-382), with an injectable
fault: `fault = some e` models an exception `e` raised anywhere inside the
pipeline, which propagates out of `find_sources`. -/
def run_pipeline (env : Env) (gold_query : String) (fault : Option String) :
    Except String PairedResult :=
  match fault with
  | some e => Except.error e
  | none => Except.ok (find_sources env gold_query)

/-- `SourceFinder.build` (lines 356-390): the `except Exception` clause becomes
the `Except.error` branch, returning the empty `PairedResult`. -/
def build (env : Env) (gold_query : String) (fault : Option String) : PairedResult :=
  match run_pipeline env gold_query fault with
  | Except.ok paired_sets =>
      { clear_set := paired_sets.clear_set, unclear_set := paired_sets.unclear_set }
  | Except.error _ => { clear_set := [], unclear_set := [] }

/-- The possible outcomes of the `try` body of `_load_domain_config`
(lines 63-76), an interaction with the external filesystem/JSON parser: a
parsed configuration (each topic section is `some (reliable, misleading)`,
or `none` for a non-dict value, which the loader skips), a missing file, a
JSON decoding error, or any other exception (e.g. a `PermissionError` from
`open` or a `UnicodeDecodeError` from reading the file), carried as `e`. -/
inductive ConfigLoadOutcome where
  | ok (config : List (String × Option (List String × List String)))
  | fileNotFound
  | jsonDecodeError
  | otherError (e : String)
  deriving DecidableEq

/-- `SourceFinder._load_domain_config` (lines 61-84): union the `reliable` and
`misleading` arrays of every topic section; `except FileNotFoundError` and
`except json.JSONDecodeError` yield empty tables, while any other exception
propagates (`Except.error`). -/
def load_domain_config (outcome : ConfigLoadOutcome) : Except String (List String × List String) :=
  match outcome with
  | ConfigLoadOutcome.ok config =>
      Except.ok
        (config.flatMap (fun tc => match tc.2 with | some rm => rm.1 | none => []),
         config.flatMap (fun tc => match tc.2 with | some rm => rm.2 | none => []))
  | ConfigLoadOutcome.fileNotFound => Except.ok ([], [])
  | ConfigLoadOutcome.jsonDecodeError => Except.ok ([], [])
  | ConfigLoadOutcome.otherError e => Except.error e

end SourceFinder

namespace SourceFinder

theorem extract_keywords_check :
    extract_keywords [] "Hello, a big World 42x abc" = ["hello", "big", "world", "abc"] := by decide

theorem contains_check : pyContains "abcde" "bcd" = true := by decide

/-- The `url` field of the projection of `classify_domain` used by both the
code and the spec-stated variant: the lowercased netloc with every `www.`
occurrence removed. -/
def code_domain_of (url : String) : String :=
  pyRemoveAll (pyLower (urlparse_netloc url)) "www."

theorem classify_domain_eq_reliable_iff (reliable_domains unreliable_domains : List String)
    (url : String) :
    classify_domain reliable_domains unreliable_domains url = "reliable" ↔
      (reliable_domains.any fun d => domain_matches (code_domain_of url) d) = true := by
  unfold classify_domain code_domain_of
  by_cases h1 : (reliable_domains.any fun d =>
      domain_matches (pyRemoveAll (pyLower (urlparse_netloc url)) "www.") d) = true
  · simp [h1]
  · by_cases h2 : (unreliable_domains.any fun d =>
        domain_matches (pyRemoveAll (pyLower (urlparse_netloc url)) "www.") d) = true
    · simp [h1, h2]
    · simp [h1, h2]

theorem classify_domain_eq_unreliable_iff (reliable_domains unreliable_domains : List String)
    (url : String) :
    classify_domain reliable_domains unreliable_domains url = "unreliable" ↔
      ¬ ((reliable_domains.any fun d => domain_matches (code_domain_of url) d) = true) ∧
        (unreliable_domains.any fun d => domain_matches (code_domain_of url) d) = true := by
  unfold classify_domain code_domain_of
  by_cases h1 : (reliable_domains.any fun d =>
      domain_matches (pyRemoveAll (pyLower (urlparse_netloc url)) "www.") d) = true
  · simp [h1]
  · by_cases h2 : (unreliable_domains.any fun d =>
        domain_matches (pyRemoveAll (pyLower (urlparse_netloc url)) "www.") d) = true
    · simp [h1, h2]
    · simp [h1, h2]

theorem classify_domain_eq_unknown_iff (reliable_domains unreliable_domains : List String)
    (url : String) :
    classify_domain reliable_domains unreliable_domains url = "unknown" ↔
      ¬ ((reliable_domains.any fun d => domain_matches (code_domain_of url) d) = true) ∧
        ¬ ((unreliable_domains.any fun d => domain_matches (code_domain_of url) d) = true) := by
  unfold classify_domain code_domain_of
  by_cases h1 : (reliable_domains.any fun d =>
      domain_matches (pyRemoveAll (pyLower (urlparse_netloc url)) "www.") d) = true
  · simp [h1]
  · by_cases h2 : (unreliable_domains.any fun d =>
        domain_matches (pyRemoveAll (pyLower (urlparse_netloc url)) "www.") d) = true
    · simp [h1, h2]
    · simp [h1, h2]

/-- C3: injecting an exception anywhere inside the pipeline run by `build`
makes `build` return the empty `PairedResult` `{'clear_set': [],
'unclear_set': []}`; the `except Exception` clause at lines 384-390 converts
every pipeline exception into this value, so none propagates. -/
theorem build_returns_empty_sets_on_exception (env : Env) (gold_query e : String) :
    build env gold_query (some e) = { clear_set := [], unclear_set := [] } := rfl

/-- C9 counterexample: a configuration load failure that is neither a missing
file nor invalid JSON — here a `PermissionError` raised by `open` — is caught
by neither `except` clause of `_load_domain_config` (lines 77-84) and escapes
to the caller instead of yielding empty trust sets. -/
theorem load_domain_config_unhandled_error_escapes :
    load_domain_config (ConfigLoadOutcome.otherError "PermissionError") =
      Except.error "PermissionError" := rfl

/-- C9 amended: the two configuration load failures the code handles — missing
file (`FileNotFoundError`) and invalid JSON (`json.JSONDecodeError`) — are
recovered locally with both trust sets empty and no exception to the caller;
other load failures propagate. -/
theorem load_domain_config_missing_file_or_bad_json_empty :
    load_domain_config ConfigLoadOutcome.fileNotFound = Except.ok ([], []) ∧
      load_domain_config ConfigLoadOutcome.jsonDecodeError = Except.ok ([], []) :=
  ⟨rfl, rfl⟩

/-- C7: when the query's keyword set (lowercase alphabetic words of length
`> 2` with stopwords removed) is empty, `_compute_relevance_score` returns 0.0
for every text via the early `if not query_keywords` guard (lines 120-121), so
the division by the keyword count at line 126 is never reached with an empty
keyword set. -/
theorem relevance_score_zero_of_no_keywords (stopwords : List String)
    (ratio : String → String → ℚ) (gold_query : String)
    (h : extract_keywords stopwords gold_query = []) (text : String) :
    compute_relevance_score stopwords ratio gold_query text = 0 := by
  unfold compute_relevance_score
  simp [h]

theorem relevance_score_zero_of_no_keywords_witness :
    extract_keywords [] "an 42 ok" = [] ∧
      compute_relevance_score [] (fun _ _ => 50) "an 42 ok" "any text at all" = 0 :=
  ⟨by decide,
   relevance_score_zero_of_no_keywords [] (fun _ _ => 50) "an 42 ok" (by decide)
     "any text at all"⟩

/-- C5 counterexample: the claim says the classifier strips a LEADING `www.`
from the lowercased host, but line 139 runs `.replace("www.", "")`, which
removes every occurrence.  On `http://foo.www.example.org/a` with
`www.example.org` in the reliable table, the claimed algorithm
(`classify_domain_spec`, modelled from the spec's words) answers `reliable`,
while the code answers `unknown`: the claim as stated is false of the code. -/
theorem classify_domain_differs_from_leading_www_strip :
    classify_domain ["www.example.org"] [] "http://foo.www.example.org/a" = "unknown" ∧
      classify_domain_spec ["www.example.org"] [] "http://foo.www.example.org/a" = "reliable" := by
  constructor <;> decide

/-- C5 amended: the classifier compares the URL's host, lowercased with EVERY
occurrence of the substring `www.` removed (not only a leading one), against
the trust tables; a domain `d` matches an entry `e` iff `d == e` or `d` ends
with `"." + e` (dot-anchored), the reliable table is checked first and then
the unreliable one with first match winning, no match yields `unknown`, and in
particular `http://sub.example.org/a` with `example.org` in the reliable table
is classified reliable while `http://example.org.evil.com` is not. -/
theorem classify_domain_characterization (reliable_domains unreliable_domains : List String)
    (url : String) :
    (classify_domain reliable_domains unreliable_domains url = "reliable" ↔
      ∃ d ∈ reliable_domains, domain_matches (code_domain_of url) d = true) ∧
    (classify_domain reliable_domains unreliable_domains url = "unreliable" ↔
      (∀ d ∈ reliable_domains, ¬ domain_matches (code_domain_of url) d = true) ∧
        ∃ d ∈ unreliable_domains, domain_matches (code_domain_of url) d = true) ∧
    (classify_domain reliable_domains unreliable_domains url = "unknown" ↔
      (∀ d ∈ reliable_domains, ¬ domain_matches (code_domain_of url) d = true) ∧
        ∀ d ∈ unreliable_domains, ¬ domain_matches (code_domain_of url) d = true) ∧
    (∀ domain entry : String,
      domain_matches domain entry = true ↔
        domain = entry ∨ ("." ++ entry).data <:+ domain.data) ∧
    classify_domain ["example.org"] [] "http://sub.example.org/a" = "reliable" ∧
    classify_domain ["example.org"] [] "http://example.org.evil.com" ≠ "reliable" := by
  refine ⟨?_, ?_, ?_, ?_, by decide, by decide⟩
  · rw [classify_domain_eq_reliable_iff]
    simp [List.any_eq_true]
  · rw [classify_domain_eq_unreliable_iff]
    simp [List.any_eq_true]
  · rw [classify_domain_eq_unknown_iff]
    simp [List.any_eq_true]
  · intro domain entry
    unfold domain_matches
    simp [String.ext_iff]

/-- C4: a search result is accepted into the flat source collection iff raw
text extraction succeeds, the extracted text is at least 400 characters long,
and the relevance score of that text against the gold query is at least 0.35.
The 399/400-character boundary and the acceptance of a score of exactly 0.35
are instances of this equivalence (the gate is `len(text) >= 400` and the
rejection test is the strict `score < 0.35`). -/
theorem result_accepted_iff (env : Env) (gold_query : String) (result : SearchResult) :
    (∃ s, process_result env gold_query result = some s) ↔
      ∃ t, env.extractRaw result.url = some t ∧ 400 ≤ t.length ∧
        7/20 ≤ compute_relevance_score env.stopwords env.ratio gold_query t := by
  have hlen_ne : ∀ u : String, 400 ≤ u.length → u ≠ "" := by
    intro u hu h
    subst h
    have h0 : ("" : String).length = 0 := rfl
    rw [h0] at hu
    omega
  unfold process_result extract_text_from_url
  cases hraw : env.extractRaw result.url with
  | none => simp
  | some t =>
    dsimp only
    by_cases hcond : t ≠ "" ∧ 400 ≤ t.length
    · rw [if_pos hcond]
      dsimp only
      by_cases hsc : compute_relevance_score env.stopwords env.ratio gold_query t < 7/20
      · rw [if_pos hsc]
        simp only [Option.some.injEq]
        constructor
        · rintro ⟨s, hs⟩
          exact absurd hs (by simp)
        · rintro ⟨t', ht', _, hsc'⟩
          subst ht'
          exact absurd hsc' (not_le.mpr hsc)
      · rw [if_neg hsc]
        simp only [Option.some.injEq]
        exact ⟨fun _ => ⟨t, rfl, hcond.2, not_lt.mp hsc⟩, fun _ => ⟨_, rfl⟩⟩
    · rw [if_neg hcond]
      simp only [Option.some.injEq]
      constructor
      · rintro ⟨s, hs⟩
        exact absurd hs (by simp)
      · rintro ⟨t', ht', hlen', _⟩
        subst ht'
        exact absurd ⟨hlen_ne t hlen', hlen'⟩ hcond

/-- Numerator-over-denominator bounds for the keyword hit rate: it always lies
in `[0, 1]` (when the keyword list is empty the rational division by zero
yields 0, and `_compute_relevance_score` never reaches it in that case
anyway). -/
theorem keyword_hit_rate_bounds (stopwords : List String) (gold_query text : String) :
    0 ≤ keyword_hit_rate stopwords gold_query text ∧
      keyword_hit_rate stopwords gold_query text ≤ 1 := by
  simp only [keyword_hit_rate]
  rcases Nat.eq_zero_or_pos (extract_keywords stopwords gold_query).length with h0 | hpos
  · rw [h0]
    norm_num
  · constructor
    · apply div_nonneg
      · exact_mod_cast Nat.zero_le _
      · exact_mod_cast Nat.zero_le _
    · rw [div_le_one (by exact_mod_cast hpos)]
      exact_mod_cast List.countP_le_length _

/-- C6: for every query and text the relevance score lies in `[0, 1]`
(given that the external rapidfuzz ratio returns a value in `[0, 100]`), and
whenever the keyword set is nonempty the score is exactly
`0.6 * hit_rate + 0.4 * (ratio / 100)`. -/
theorem relevance_score_in_unit_interval (stopwords : List String)
    (ratio : String → String → ℚ)
    (hratio : ∀ q t, 0 ≤ ratio q t ∧ ratio q t ≤ 100)
    (gold_query text : String) :
    (0 ≤ compute_relevance_score stopwords ratio gold_query text ∧
      compute_relevance_score stopwords ratio gold_query text ≤ 1) ∧
    (extract_keywords stopwords gold_query ≠ [] →
      compute_relevance_score stopwords ratio gold_query text =
        6/10 * keyword_hit_rate stopwords gold_query text +
          4/10 * (ratio gold_query (pyTake text 5000) / 100)) := by
  unfold compute_relevance_score
  by_cases hks : (extract_keywords stopwords gold_query).isEmpty
  · rw [if_pos hks]
    refine ⟨by norm_num, ?_⟩
    intro hne
    exact absurd (List.isEmpty_iff.mp hks) hne
  · rw [if_neg hks]
    have hhr := keyword_hit_rate_bounds stopwords gold_query text
    have hf := hratio gold_query (pyTake text 5000)
    have hf0 : 0 ≤ ratio gold_query (pyTake text 5000) / 100 := by
      apply div_nonneg hf.1
      norm_num
    have hf1 : ratio gold_query (pyTake text 5000) / 100 ≤ 1 := by
      rw [div_le_one (by norm_num : (0:ℚ) < 100)]
      exact hf.2
    exact ⟨⟨by linarith [hhr.1, hhr.2], by linarith [hhr.1, hhr.2]⟩, fun _ => rfl⟩

theorem relevance_score_in_unit_interval_witness :
    (0 ≤ compute_relevance_score [] (fun _ _ => 50) "covid vaccine" "some text" ∧
      compute_relevance_score [] (fun _ _ => 50) "covid vaccine" "some text" ≤ 1) ∧
    (extract_keywords [] "covid vaccine" ≠ [] →
      compute_relevance_score [] (fun _ _ => 50) "covid vaccine" "some text" =
        6/10 * keyword_hit_rate [] "covid vaccine" "some text" +
          4/10 * ((fun (_ _ : String) => (50:ℚ)) "covid vaccine" (pyTake "some text" 5000) / 100)) :=
  relevance_score_in_unit_interval [] (fun _ _ => 50)
    (fun _ _ => by norm_num) "covid vaccine" "some text"

/-- C8: appending an occurrence of one of the query's keywords to the text
never decreases the keyword hit rate: every keyword that occurred as a
substring of the lowercased text still occurs after the append, and the
keyword count (the denominator) is unchanged. -/
theorem keyword_hit_rate_monotone (stopwords : List String) (gold_query text kw : String)
    (hne : extract_keywords stopwords gold_query ≠ [])
    (_hkw : kw ∈ extract_keywords stopwords gold_query) :
    keyword_hit_rate stopwords gold_query text ≤
      keyword_hit_rate stopwords gold_query (text ++ kw) := by
  unfold keyword_hit_rate
  have hlen : 0 < ((extract_keywords stopwords gold_query).length : ℚ) := by
    have h := List.length_pos.mpr hne
    exact_mod_cast h
  rw [div_le_div_iff_of_pos_right hlen]
  have hcount : (extract_keywords stopwords gold_query).countP
        (fun k => pyContains (pyLower text) k) ≤
      (extract_keywords stopwords gold_query).countP
        (fun k => pyContains (pyLower (text ++ kw)) k) := by
    apply List.countP_mono_left
    intro x _ hpx
    unfold pyContains at hpx ⊢
    rw [decide_eq_true_iff] at hpx ⊢
    have hdata : (pyLower (text ++ kw)).data = (pyLower text).data ++ (pyLower kw).data := by
      unfold pyLower
      rw [String.data_append, List.map_append]
    rw [hdata]
    obtain ⟨s, t, hst⟩ := hpx
    exact ⟨s, t ++ (pyLower kw).data, by rw [← hst]; simp⟩
  exact_mod_cast hcount

theorem mem_map_of_mem_filter_map {α β : Type} (f : α → β) {l : List α} {q : α → Bool} {x : β}
    (h : x ∈ (l.filter q).map f) : x ∈ l.map f := by
  rcases List.mem_map.mp h with ⟨s, hs, rfl⟩
  exact List.mem_map.mpr ⟨s, List.mem_of_mem_filter hs, rfl⟩

/-- If the projections `f` of a list are pairwise distinct, no value can be
the projection both of an element satisfying `p` and of one satisfying `q`,
for mutually exclusive predicates `p` and `q`. -/
theorem not_mem_both_filters {α β : Type} (f : α → β) :
    ∀ (l : List α) (p q : α → Bool), (∀ s, ¬(p s = true ∧ q s = true)) →
      (l.map f).Nodup →
      ∀ x, x ∈ (l.filter p).map f → x ∈ (l.filter q).map f → False := by
  intro l
  induction l with
  | nil => simp
  | cons a l ih =>
    intro p q hpq hnd x hxp hxq
    rw [List.map_cons, List.nodup_cons] at hnd
    rw [List.filter_cons] at hxp hxq
    by_cases hpa : p a = true
    · have hqa : ¬ q a = true := fun h => hpq a ⟨hpa, h⟩
      rw [if_pos hpa, List.map_cons] at hxp
      rw [if_neg hqa] at hxq
      rcases List.mem_cons.mp hxp with hxa | hxp'
      · subst hxa
        exact hnd.1 (mem_map_of_mem_filter_map f hxq)
      · exact ih p q hpq hnd.2 x hxp' hxq
    · rw [if_neg hpa] at hxp
      by_cases hqa : q a = true
      · rw [if_pos hqa, List.map_cons] at hxq
        rcases List.mem_cons.mp hxq with hxa | hxq'
        · subst hxa
          exact hnd.1 (mem_map_of_mem_filter_map f hxp)
        · exact ih p q hpq hnd.2 x hxp hxq'
      · rw [if_neg hqa] at hxq
        exact ih p q hpq hnd.2 x hxp hxq

/-- In a list whose `f`-projections are pairwise distinct, no value is the
projection both of an element of `l.take n` and of one of `l.drop n`. -/
theorem not_mem_take_and_drop {α β : Type} (f : α → β) (l : List α) (n : Nat)
    (hnd : (l.map f).Nodup) (x : β)
    (h1 : x ∈ (l.take n).map f) (h2 : x ∈ (l.drop n).map f) : False := by
  rw [List.map_take] at h1
  rw [List.map_drop] at h2
  rw [← List.take_append_drop n (l.map f), List.nodup_append] at hnd
  exact hnd.2.2 h1 h2

theorem map_url_format (now : String) (l : List Source) :
    (l.map (format_source now)).map (fun s => s.url) = l.map (fun s => s.url) := by
  rw [List.map_map]
  rfl

theorem map_category_format (now : String) (l : List Source) :
    (l.map (format_source now)).map (fun s => s.category) = l.map (fun s => s.category) := by
  rw [List.map_map]
  rfl

/-- The categories `reliable` and `unreliable` are mutually exclusive
predicates on a source. -/
theorem reliable_unreliable_exclusive :
    ∀ s : Source, ¬((s.category == "reliable") = true ∧ (s.category == "unreliable") = true) := by
  intro s ⟨h1, h2⟩
  rw [beq_iff_eq] at h1 h2
  rw [h1] at h2
  exact absurd h2 (by decide)

/-- Core url-disjointness of the two output sets of `_create_paired_sets`:
the clear slices (`reliable[:4]`, `unreliable[:1]`) and the unclear slices
(`reliable[4:5]`, `unreliable[1:]`) use non-overlapping index ranges of the
same shuffled lists, so when all input urls are pairwise distinct no url is in
both outputs. -/
theorem paired_urls_disjoint_aux (now : String) (sR sU : List Source → List Source)
    (hR : ∀ l, (sR l).Perm l) (hU : ∀ l, (sU l).Perm l)
    (sources : List Source) (hnd : (sources.map (fun s => s.url)).Nodup) :
    List.Disjoint
      ((create_paired_sets now sR sU sources).clear_set.map (fun s => s.url))
      ((create_paired_sets now sR sU sources).unclear_set.map (fun s => s.url)) := by
  intro x hx1 hx2
  simp only [create_paired_sets] at hx1 hx2
  rw [map_url_format] at hx1 hx2
  set R := sR (sources.filter (fun s => s.category == "reliable")) with hRdef
  set U := sU (sources.filter (fun s => s.category == "unreliable")) with hUdef
  have hRperm : R.Perm (sources.filter (fun s => s.category == "reliable")) := hR _
  have hUperm : U.Perm (sources.filter (fun s => s.category == "unreliable")) := hU _
  have hRnd : (R.map (fun s => s.url)).Nodup := by
    rw [(hRperm.map (fun s => s.url)).nodup_iff]
    exact hnd.sublist ((List.filter_sublist sources).map (fun s => s.url))
  have hUnd : (U.map (fun s => s.url)).Nodup := by
    rw [(hUperm.map (fun s => s.url)).nodup_iff]
    exact hnd.sublist ((List.filter_sublist sources).map (fun s => s.url))
  have hcross : ∀ y, y ∈ R.map (fun s => s.url) → y ∈ U.map (fun s => s.url) → False := by
    intro y hyR hyU
    rw [(hRperm.map (fun s => s.url)).mem_iff] at hyR
    rw [(hUperm.map (fun s => s.url)).mem_iff] at hyU
    exact not_mem_both_filters (fun s => s.url) sources _ _
      reliable_unreliable_exclusive hnd y hyR hyU
  -- reduce the clear-set membership to one of the two take-slices
  rw [List.map_append, List.mem_append] at hx1
  have hx1' : x ∈ (R.take 4).map (fun s => s.url) ∨ x ∈ (U.take 1).map (fun s => s.url) := by
    rcases hx1 with h | h
    · left
      by_cases h4 : 4 ≤ R.length
      · rw [if_pos h4] at h
        exact h
      · rw [if_neg h4] at h
        rw [List.take_of_length_le (by omega)]
        exact h
    · right
      by_cases h1 : 1 ≤ U.length
      · rw [if_pos h1] at h
        exact h
      · rw [if_neg h1] at h
        exact absurd h (by simp)
  -- reduce the unclear-set membership to one of the two drop-slices
  rw [List.map_append, List.mem_append] at hx2
  have hx2' : x ∈ (R.drop 4).map (fun s => s.url) ∨ x ∈ (U.drop 1).map (fun s => s.url) := by
    rcases hx2 with h | h
    · left
      by_cases h5 : 5 ≤ R.length
      · rw [if_pos h5] at h
        rw [List.map_take] at h
        rw [List.map_drop] at h ⊢
        exact List.mem_of_mem_take h
      · rw [if_neg h5] at h
        exact absurd h (by simp)
    · right
      by_cases h4 : 4 ≤ U.length
      · rw [if_pos h4] at h
        rw [List.map_take] at h
        rw [List.map_drop] at h ⊢
        exact List.mem_of_mem_take h
      · rw [if_neg h4] at h
        exact h
  rcases hx1' with hc | hc <;> rcases hx2' with hu | hu
  · exact not_mem_take_and_drop (fun s => s.url) R 4 hRnd x hc hu
  · exact hcross x (by rw [List.map_take] at hc; exact List.mem_of_mem_take hc)
      (by rw [List.map_drop] at hu; exact List.mem_of_mem_drop hu)
  · exact hcross x (by rw [List.map_drop] at hu; exact List.mem_of_mem_drop hu)
      (by rw [List.map_take] at hc; exact List.mem_of_mem_take hc)
  · exact not_mem_take_and_drop (fun s => s.url) U 1 hUnd x hc hu

theorem keyword_hit_rate_monotone_witness :
    extract_keywords [] "covid" ≠ [] ∧ "covid" ∈ extract_keywords [] "covid" ∧
      keyword_hit_rate [] "covid" "short note" ≤
        keyword_hit_rate [] "covid" ("short note" ++ "covid") :=
  ⟨by decide, by decide,
   keyword_hit_rate_monotone [] "covid" "short note" "covid" (by decide) (by decide)⟩

/-- Every element of a shuffled category bucket carries that category. -/
theorem mem_shuffled_filter_category (sh : List Source → List Source)
    (hsh : ∀ l, (sh l).Perm l) (sources : List Source) (cat : String) :
    ∀ s ∈ sh (sources.filter (fun s => s.category == cat)), s.category = cat := by
  intro s hs
  have h1 := (hsh _).mem_iff.mp hs
  have h2 := (List.mem_filter.mp h1).2
  exact beq_iff_eq.mp h2

theorem clear_slice_categories (R U : List Source) (hRlen : 4 ≤ R.length) (hUlen : 1 ≤ U.length)
    (hRcat : ∀ s ∈ R, s.category = "reliable") (hUcat : ∀ s ∈ U, s.category = "unreliable") :
    ((if 4 ≤ R.length then R.take 4 else R) ++
        (if 1 ≤ U.length then U.take 1 else [])).map (fun s => s.category) =
      ["reliable", "reliable", "reliable", "reliable", "unreliable"] := by
  rw [if_pos hRlen, if_pos hUlen, List.map_append]
  have h1 : (R.take 4).map (fun s => s.category) = List.replicate 4 "reliable" := by
    rw [List.eq_replicate_iff]
    refine ⟨?_, ?_⟩
    · rw [List.length_map, List.length_take]
      omega
    · intro b hb
      rcases List.mem_map.mp hb with ⟨s, hs, rfl⟩
      exact hRcat s (List.mem_of_mem_take hs)
  have h2 : (U.take 1).map (fun s => s.category) = List.replicate 1 "unreliable" := by
    rw [List.eq_replicate_iff]
    refine ⟨?_, ?_⟩
    · rw [List.length_map, List.length_take]
      omega
    · intro b hb
      rcases List.mem_map.mp hb with ⟨s, hs, rfl⟩
      exact hUcat s (List.mem_of_mem_take hs)
  rw [h1, h2]
  rfl

theorem unclear_slice_categories (R U : List Source) (hRlen : 5 ≤ R.length) (hUlen : 4 ≤ U.length)
    (hRcat : ∀ s ∈ R, s.category = "reliable") (hUcat : ∀ s ∈ U, s.category = "unreliable") :
    ((if 5 ≤ R.length then (R.drop 4).take 1 else []) ++
        (if 4 ≤ U.length then (U.drop 1).take 3 else U.drop 1)).map (fun s => s.category) =
      ["reliable", "unreliable", "unreliable", "unreliable"] := by
  rw [if_pos hRlen, if_pos hUlen, List.map_append]
  have h1 : ((R.drop 4).take 1).map (fun s => s.category) = List.replicate 1 "reliable" := by
    rw [List.eq_replicate_iff]
    refine ⟨?_, ?_⟩
    · rw [List.length_map, List.length_take, List.length_drop]
      omega
    · intro b hb
      rcases List.mem_map.mp hb with ⟨s, hs, rfl⟩
      exact hRcat s (List.mem_of_mem_drop (List.mem_of_mem_take hs))
  have h2 : ((U.drop 1).take 3).map (fun s => s.category) = List.replicate 3 "unreliable" := by
    rw [List.eq_replicate_iff]
    refine ⟨?_, ?_⟩
    · rw [List.length_map, List.length_take, List.length_drop]
      omega
    · intro b hb
      rcases List.mem_map.mp hb with ⟨s, hs, rfl⟩
      exact hUcat s (List.mem_of_mem_drop (List.mem_of_mem_take hs))
  rw [h1, h2]
  rfl

/-- A concrete source fixture. -/
def mkSource (u cat : String) : Source :=
  { url := u, domain := u, category := cat, score := 1, text := "", title := "", snippet := "" }

/-- Six reliable, five unreliable and one unknown source, all with pairwise
distinct urls. -/
def demoSources : List Source :=
  [mkSource "r1" "reliable", mkSource "r2" "reliable", mkSource "r3" "reliable",
   mkSource "r4" "reliable", mkSource "r5" "reliable", mkSource "r6" "reliable",
   mkSource "u1" "unreliable", mkSource "u2" "unreliable", mkSource "u3" "unreliable",
   mkSource "u4" "unreliable", mkSource "u5" "unreliable", mkSource "k1" "unknown"]

/-- Six reliable sources two of which share the url `d1`, plus five
unreliable sources. -/
def dupUrlSources : List Source :=
  [mkSource "d1" "reliable", mkSource "r2" "reliable", mkSource "r3" "reliable",
   mkSource "r4" "reliable", mkSource "d1" "reliable", mkSource "r6" "reliable",
   mkSource "u1" "unreliable", mkSource "u2" "unreliable", mkSource "u3" "unreliable",
   mkSource "u4" "unreliable", mkSource "u5" "unreliable"]

/-- Three sources sharing the url `x`: one reliable, two unreliable. -/
def sharedUrlSources : List Source :=
  [mkSource "x" "reliable", mkSource "x" "unreliable", mkSource "x" "unreliable"]

/-- C1 counterexample: an input collection with six reliable-category sources
two of which share the url `d1` (and five unreliable ones) defeats the
disjointness part of the claim: under one possible pair of shuffle outcomes
(the identity permutation, a legitimate value of `random.shuffle`) one `d1`
source lands in `reliable[:4]` (hence in `clear_set`) and the other at
`reliable[4]` (hence in `unclear_set`), so the url `d1` occurs in both sets
even though the input has ≥ 6 reliable and ≥ 5 unreliable sources. -/
theorem create_paired_sets_shared_url_on_duplicate_urls :
    6 ≤ (dupUrlSources.filter (fun s => s.category == "reliable")).length ∧
    5 ≤ (dupUrlSources.filter (fun s => s.category == "unreliable")).length ∧
    "d1" ∈ ((create_paired_sets "t" id id dupUrlSources).clear_set.map (fun s => s.url)) ∧
    "d1" ∈ ((create_paired_sets "t" id id dupUrlSources).unclear_set.map (fun s => s.url)) := by
  refine ⟨by decide, by decide, by decide, by decide⟩

/-- C1 amended: for every input collection with at least 6 reliable and at
least 5 unreliable sources — and, as the counterexample forces, pairwise
distinct urls — and for every pair of shuffle outcomes, `_create_paired_sets`
returns a `clear_set` of exactly 5 sources (4 reliable followed by 1
unreliable) and an `unclear_set` of exactly 4 sources (1 reliable followed by
3 unreliable), and no url occurs in both sets. -/
theorem create_paired_sets_sizes_composition_disjoint (now : String)
    (sR sU : List Source → List Source)
    (hR : ∀ l, (sR l).Perm l) (hU : ∀ l, (sU l).Perm l) (sources : List Source)
    (h6 : 6 ≤ (sources.filter (fun s => s.category == "reliable")).length)
    (h5 : 5 ≤ (sources.filter (fun s => s.category == "unreliable")).length)
    (hnd : (sources.map (fun s => s.url)).Nodup) :
    (create_paired_sets now sR sU sources).clear_set.length = 5 ∧
    (create_paired_sets now sR sU sources).clear_set.map (fun s => s.category) =
      ["reliable", "reliable", "reliable", "reliable", "unreliable"] ∧
    (create_paired_sets now sR sU sources).unclear_set.length = 4 ∧
    (create_paired_sets now sR sU sources).unclear_set.map (fun s => s.category) =
      ["reliable", "unreliable", "unreliable", "unreliable"] ∧
    List.Disjoint
      ((create_paired_sets now sR sU sources).clear_set.map (fun s => s.url))
      ((create_paired_sets now sR sU sources).unclear_set.map (fun s => s.url)) := by
  set R := sR (sources.filter (fun s => s.category == "reliable")) with hRdef
  set U := sU (sources.filter (fun s => s.category == "unreliable")) with hUdef
  have hRlen : 6 ≤ R.length := by
    rw [hRdef, (hR _).length_eq]
    exact h6
  have hUlen : 5 ≤ U.length := by
    rw [hUdef, (hU _).length_eq]
    exact h5
  have hRcat : ∀ s ∈ R, s.category = "reliable" :=
    mem_shuffled_filter_category sR hR sources "reliable"
  have hUcat : ∀ s ∈ U, s.category = "unreliable" :=
    mem_shuffled_filter_category sU hU sources "unreliable"
  have hclear : (create_paired_sets now sR sU sources).clear_set.map (fun s => s.category) =
      ["reliable", "reliable", "reliable", "reliable", "unreliable"] := by
    rw [show (create_paired_sets now sR sU sources).clear_set =
        ((if 4 ≤ R.length then R.take 4 else R) ++
          (if 1 ≤ U.length then U.take 1 else [])).map (format_source now) from rfl,
      map_category_format]
    exact clear_slice_categories R U (by omega) (by omega) hRcat hUcat
  have hunclear : (create_paired_sets now sR sU sources).unclear_set.map (fun s => s.category) =
      ["reliable", "unreliable", "unreliable", "unreliable"] := by
    rw [show (create_paired_sets now sR sU sources).unclear_set =
        ((if 5 ≤ R.length then (R.drop 4).take 1 else []) ++
          (if 4 ≤ U.length then (U.drop 1).take 3 else U.drop 1)).map (format_source now) from rfl,
      map_category_format]
    exact unclear_slice_categories R U (by omega) (by omega) hRcat hUcat
  have hlen5 : (create_paired_sets now sR sU sources).clear_set.length = 5 := by
    have h := congrArg List.length hclear
    rw [List.length_map] at h
    exact h
  have hlen4 : (create_paired_sets now sR sU sources).unclear_set.length = 4 := by
    have h := congrArg List.length hunclear
    rw [List.length_map] at h
    exact h
  exact ⟨hlen5, hclear, hlen4, hunclear,
    paired_urls_disjoint_aux now sR sU hR hU sources hnd⟩

theorem create_paired_sets_sizes_composition_disjoint_witness :
    ((demoSources.map (fun s => s.url)).Nodup ∧
      6 ≤ (demoSources.filter (fun s => s.category == "reliable")).length ∧
      5 ≤ (demoSources.filter (fun s => s.category == "unreliable")).length) ∧
    ((create_paired_sets "t" id id demoSources).clear_set.length = 5 ∧
      (create_paired_sets "t" id id demoSources).clear_set.map (fun s => s.category) =
        ["reliable", "reliable", "reliable", "reliable", "unreliable"] ∧
      (create_paired_sets "t" id id demoSources).unclear_set.length = 4 ∧
      (create_paired_sets "t" id id demoSources).unclear_set.map (fun s => s.category) =
        ["reliable", "unreliable", "unreliable", "unreliable"] ∧
      List.Disjoint
        ((create_paired_sets "t" id id demoSources).clear_set.map (fun s => s.url))
        ((create_paired_sets "t" id id demoSources).unclear_set.map (fun s => s.url))) :=
  ⟨⟨by decide, by decide, by decide⟩,
   create_paired_sets_sizes_composition_disjoint "t" id id (fun l => List.Perm.refl l)
     (fun l => List.Perm.refl l) demoSources (by decide) (by decide) (by decide)⟩

/-- C2 counterexample: when several input sources share the url `x` (one
reliable, two unreliable), the identity shuffle outcome puts the reliable one
and the first unreliable one in `clear_set` and the second unreliable one in
`unclear_set`, so the two sets share the url `x`: the claim is false for
arbitrary input collections. -/
theorem create_paired_sets_shared_url_counterexample :
    "x" ∈ ((create_paired_sets "t" id id sharedUrlSources).clear_set.map (fun s => s.url)) ∧
    "x" ∈ ((create_paired_sets "t" id id sharedUrlSources).unclear_set.map (fun s => s.url)) := by
  refine ⟨by decide, by decide⟩

/-- C2 amended: for every input collection whose sources carry pairwise
distinct urls — the condition the counterexample forces — and for every pair
of shuffle outcomes, `clear_set` and `unclear_set` never share a url,
regardless of how many reliable, unreliable or unknown sources the input
contains. -/
theorem clear_unclear_never_share_url (now : String) (sR sU : List Source → List Source)
    (hR : ∀ l, (sR l).Perm l) (hU : ∀ l, (sU l).Perm l)
    (sources : List Source) (hnd : (sources.map (fun s => s.url)).Nodup) :
    List.Disjoint
      ((create_paired_sets now sR sU sources).clear_set.map (fun s => s.url))
      ((create_paired_sets now sR sU sources).unclear_set.map (fun s => s.url)) :=
  paired_urls_disjoint_aux now sR sU hR hU sources hnd

/-- Every source accepted into the flat collection stores only the first 1000
characters of its extracted text (`text[:1000]` at line 247). -/
theorem collect_sources_text_le (env : Env) (gold_query : String) :
    ∀ s ∈ collect_sources env gold_query, s.text.length ≤ 1000 := by
  intro s hs
  unfold collect_sources at hs
  rw [List.mem_flatMap] at hs
  obtain ⟨q, -, hs⟩ := hs
  rw [List.mem_filterMap] at hs
  obtain ⟨res, -, hres⟩ := hs
  unfold process_result at hres
  cases hx : extract_text_from_url (env.extractRaw res.url) with
  | none =>
    rw [hx] at hres
    exact absurd hres (by simp)
  | some text =>
    rw [hx] at hres
    dsimp only at hres
    by_cases hsc : compute_relevance_score env.stopwords env.ratio gold_query text < 7/20
    · rw [if_pos hsc] at hres
      exact absurd hres (by simp)
    · rw [if_neg hsc] at hres
      injection hres with h
      rw [← h]
      show (pyTake text 1000).length ≤ 1000
      have he : (pyTake text 1000).length = (text.data.take 1000).length := rfl
      rw [he, List.length_take]
      omega

/-- Every element of either output set of `_create_paired_sets` is the
formatting of some element of one of the two shuffled category buckets. -/
theorem mem_create_paired_sets (now : String) (sR sU : List Source → List Source)
    (sources : List Source) (fs : FormattedSource)
    (h : fs ∈ (create_paired_sets now sR sU sources).clear_set ++
          (create_paired_sets now sR sU sources).unclear_set) :
    ∃ s, (s ∈ sR (sources.filter (fun s => s.category == "reliable")) ∨
          s ∈ sU (sources.filter (fun s => s.category == "unreliable"))) ∧
      fs = format_source now s := by
  simp only [create_paired_sets] at h
  rw [List.mem_append] at h
  rcases h with h | h <;> rw [List.mem_map] at h <;> obtain ⟨s, hs, rfl⟩ := h <;>
    refine ⟨s, ?_, rfl⟩ <;> rw [List.mem_append] at hs
  · rcases hs with hs | hs
    · left
      split at hs
      · exact List.mem_of_mem_take hs
      · exact hs
    · right
      split at hs
      · exact List.mem_of_mem_take hs
      · exact absurd hs (List.not_mem_nil s)
  · rcases hs with hs | hs
    · left
      split at hs
      · exact List.mem_of_mem_drop (List.mem_of_mem_take hs)
      · exact absurd hs (List.not_mem_nil s)
    · right
      split at hs
      · exact List.mem_of_mem_drop (List.mem_of_mem_take hs)
      · exact List.mem_of_mem_drop hs

/-- Membership form of the C10 invariant: every source in either final set
has a text of at most 1000 characters. -/
theorem output_sources_text_bounded_mem (env : Env) (gold_query : String)
    (hR : ∀ l, (env.shuffleR l).Perm l) (hU : ∀ l, (env.shuffleU l).Perm l)
    (fault : Option String) :
    ∀ fs ∈ (build env gold_query fault).clear_set ++ (build env gold_query fault).unclear_set,
      fs.text.length ≤ 1000 := by
  intro fs hfs
  cases fault with
  | some e =>
    have hb : build env gold_query (some e) = { clear_set := [], unclear_set := [] } := rfl
    rw [hb] at hfs
    exact absurd hfs (by simp)
  | none =>
    have hb : build env gold_query none =
        create_paired_sets env.now env.shuffleR env.shuffleU (collect_sources env gold_query) :=
      rfl
    rw [hb] at hfs
    obtain ⟨s, hsmem, rfl⟩ :=
      mem_create_paired_sets env.now env.shuffleR env.shuffleU
        (collect_sources env gold_query) fs hfs
    have hs' : s ∈ collect_sources env gold_query := by
      rcases hsmem with h | h
      · exact List.mem_of_mem_filter ((hR _).mem_iff.mp h)
      · exact List.mem_of_mem_filter ((hU _).mem_iff.mp h)
    exact collect_sources_text_le env gold_query s hs'

/-- C10: in every run (faulted or not, and for every pair of shuffle
outcomes), every source in the final `clear_set` or `unclear_set` has a text
of at most 1000 characters: the accepted extract was truncated with
`text[:1000]` before storage, and `_create_paired_sets` copies the stored
text unchanged. -/
theorem output_sources_text_bounded (env : Env) (gold_query : String)
    (hR : ∀ l, (env.shuffleR l).Perm l) (hU : ∀ l, (env.shuffleU l).Perm l)
    (fault : Option String) :
    List.Forall (fun fs => fs.text.length ≤ 1000)
      ((build env gold_query fault).clear_set ++ (build env gold_query fault).unclear_set) := by
  rw [List.forall_iff_forall_mem]
  exact output_sources_text_bounded_mem env gold_query hR hU fault

/-- A 400-character extract: `covid` followed by 395 filler characters. -/
def wText : String := "covid" ++ ⟨List.replicate 395 'x'⟩

def wResult : SearchResult := { url := "http://a.com", title := "t", snippet := "s" }

/-- A concrete environment: every query that equals the gold query `covid`
finds `wResult`, whose extraction yields the 400-character `wText`; the fuzzy
ratio is constantly 100, `a.com` is a reliable domain, and both shuffles are
the identity permutation. -/
def wEnv : Env :=
  { stopwords := []
  , ratio := fun _ _ => 100
  , search := fun q => if q == "covid" then [wResult] else []
  , extractRaw := fun u => if u == "http://a.com" then some wText else none
  , shuffleR := id
  , shuffleU := id
  , now := "2026-01-01"
  , reliable_domains := ["a.com"]
  , unreliable_domains := [] }

set_option maxRecDepth 4000 in
theorem output_sources_text_bounded_witness :
    List.Forall (fun fs => fs.text.length ≤ 1000)
      ((build wEnv "covid" none).clear_set ++ (build wEnv "covid" none).unclear_set) :=
  output_sources_text_bounded wEnv "covid" (fun l => List.Perm.refl l)
    (fun l => List.Perm.refl l) none

theorem clear_unclear_never_share_url_witness :
    ((sharedUrlSources.map (fun s => s.url)).Nodup = False) ∧
      (demoSources.map (fun s => s.url)).Nodup ∧
      List.Disjoint
        ((create_paired_sets "u" id id demoSources).clear_set.map (fun s => s.url))
        ((create_paired_sets "u" id id demoSources).unclear_set.map (fun s => s.url)) :=
  ⟨by simp [sharedUrlSources, mkSource], by decide,
   clear_unclear_never_share_url "u" id id (fun l => List.Perm.refl l)
     (fun l => List.Perm.refl l) demoSources (by decide)⟩

end SourceFinder
